import Mathlib

/-!
Shallow embedding of the SOL_Programs repository (a Solana program
directory website) for checking its natural-language specification.

The embedding covers:
* `src/types/index.ts` — the `Program` data model and the topic/description
  classifier (`getCategoryFromTopics`, `getCategoryFromProgram`);
* `src/lib/db.ts` — the read path / fallback resolver (`getProgramsData`),
  with the database modelled as an environment of query outcomes;
* `src/scripts/batch-discovery.js` and the unnamed discovery script
  (`filterNewPrograms` / `runDiscovery`) — the deduplicating merge of newly
  discovered records into the persisted JSON catalog, plus `categorize`;
* `src/scripts/high-value-discovery.js` — its `categorize`;
* the JSON → relational sync script (`syncJsonToNeon`) — its
  update-vs-insert decision;
* `src/lib/fetch-code.ts` and the server-side code cache
  (`findCodeFiles`, `fetchRepoCode`, `getCachedData`, `setCachedData`),
  with directory listings and raw-content fetches modelled as environments.

JavaScript conventions used throughout the embedding:
* a JS value that may be `null`/`undefined` is an `Option`;
* `a || b` on strings is truthiness-based choice (empty string is falsy);
* thrown exceptions are `Except Unit` values; a `try { … } catch { … }`
  is a `match` on that `Except`;
* `String.prototype.includes` / `endsWith` are `jsIncludes` / `jsEndsWith`
  below, defined by plain character-list recursion.
-/

/-- `startsWithChars pat s` : `pat` is a prefix of the character list `s`. -/
def startsWithChars : List Char → List Char → Bool
  | [], _ => true
  | _ :: _, [] => false
  | p :: ps, c :: cs => p = c && startsWithChars ps cs

/-- `containsChars pat s` : `pat` occurs contiguously inside `s`. -/
def containsChars (pat : List Char) : List Char → Bool
  | [] => pat.isEmpty
  | c :: cs => startsWithChars pat (c :: cs) || containsChars pat cs

/-- JS `s.includes(pat)`. -/
def jsIncludes (s pat : String) : Bool :=
  containsChars pat.toList s.toList

/-- JS `s.endsWith(pat)`. -/
def jsEndsWith (s pat : String) : Bool :=
  startsWithChars pat.toList.reverse s.toList.reverse

/-- JS `s.toLowerCase()`, by per-character lowering (core's
`String.toLower` is defined by well-founded recursion and does not
reduce in the kernel; this character-list version does). -/
def jsToLower (s : String) : String := String.mk (s.data.map Char.toLower)

/-- JS truthiness of a possibly-`undefined` string: `undefined`, `null`
and the empty string are falsy. -/
def jsTruthy : Option String → Bool
  | none => false
  | some s => !(s = "")

/-- JS `a || b` on possibly-undefined strings. -/
def jsOrStr (a b : Option String) : Option String :=
  if jsTruthy a then a else b

/-- Read a JS string value into a Lean `String`; `undefined`/`null`
are read as `""` (the embedding's convention for string-typed fields
that JS leaves undefined). -/
def jsStr (a : Option String) : String := a.getD ""

/-! ## `src/types/index.ts` — data model and classifier -/

/-- `Program` from `src/types/index.ts` (one cataloged repository). -/
structure Program where
  fullName : String
  owner : String
  name : String
  url : String
  description : String
  stars : Nat
  language : String
  updated : String
  topics : List String
  category : Option String := none
  subCategory : Option String := none
  defaultBranch : Option String := none
deriving DecidableEq, Repr

/-- `ProgramsData` from `src/types/index.ts` (the catalog snapshot). -/
structure ProgramsData where
  scrapedAt : String
  totalRepos : Nat
  keywordsSearched : List String
  repos : List Program
deriving DecidableEq, Repr

/-- The `Category` union type from `src/types/index.ts`. -/
inductive Category where
  | All | DEX | NFT | Lending | Staking | DeFi | Governance | Trading | Infrastructure
deriving DecidableEq, Repr

/-- `getCategoryFromTopics` from `src/types/index.ts`: ordered
keyword-substring rules over the space-joined, lowercased topic list,
defaulting to `Infrastructure`. -/
def getCategoryFromTopics (topics : List String) : Category :=
  let topicStr := jsToLower (String.intercalate " " topics)
  if jsIncludes topicStr "nft" || jsIncludes topicStr "metaplex" ||
      jsIncludes topicStr "digital-assets" then .NFT
  else if jsIncludes topicStr "lending" || jsIncludes topicStr "borrow" ||
      jsIncludes topicStr "loan" then .Lending
  else if jsIncludes topicStr "staking" || jsIncludes topicStr "stake" then .Staking
  else if jsIncludes topicStr "dex" || jsIncludes topicStr "amm" ||
      jsIncludes topicStr "swap" || jsIncludes topicStr "liquidity" then .DEX
  else if jsIncludes topicStr "governance" || jsIncludes topicStr "dao" then .Governance
  else if jsIncludes topicStr "trading" || jsIncludes topicStr "bot" ||
      jsIncludes topicStr "arbitrage" || jsIncludes topicStr "sniper" then .Trading
  else if jsIncludes topicStr "defi" || jsIncludes topicStr "yield" ||
      jsIncludes topicStr "vault" then .DeFi
  else if jsIncludes topicStr "anchor" || jsIncludes topicStr "framework" ||
      jsIncludes topicStr "library" then .Infrastructure
  else .Infrastructure

/-- `getCategoryFromProgram` from `src/types/index.ts`: topics first,
then description keywords, defaulting to `Infrastructure`. -/
def getCategoryFromProgram (program : Program) : Category :=
  let fromTopics := getCategoryFromTopics program.topics
  if fromTopics ≠ Category.Infrastructure then fromTopics
  else
    let desc := jsToLower program.description
    if jsIncludes desc "nft" || jsIncludes desc "metaplex" then .NFT
    else if jsIncludes desc "lending" || jsIncludes desc "borrow" then .Lending
    else if jsIncludes desc "staking" || jsIncludes desc "stake" then .Staking
    else if jsIncludes desc "dex" || jsIncludes desc "amm" || jsIncludes desc "swap" then .DEX
    else if jsIncludes desc "trading" || jsIncludes desc "bot" then .Trading
    else if jsIncludes desc "defi" then .DeFi
    else if jsIncludes desc "governance" then .Governance
    else .Infrastructure

/-! ## Query/filter engine (`searchPrograms`, `filterPrograms`)

From the utility module bundled with `src/lib/fetch-code.ts`
(lines 307–335 of the combined file). -/

/-- `searchPrograms` : case-insensitive substring match of the query
against name, description, or any topic.  The trailing `|| false` of the
JS predicate is a no-op and is omitted. -/
def searchPrograms (programs : List Program) (query : String) : List Program :=
  let lowerQuery := jsToLower query
  programs.filter fun p =>
    jsIncludes (jsToLower p.name) lowerQuery ||
    jsIncludes (jsToLower p.description) lowerQuery ||
    p.topics.any (fun t => jsIncludes (jsToLower t) lowerQuery)

/-- The `filters` argument of `filterPrograms`; an unset field is `none`. -/
structure ProgramFilters where
  category : Option Category := none
  language : Option String := none
  minStars : Option Nat := none
  maxStars : Option Nat := none
deriving Repr

/-- `filterPrograms` : conjunctive filter application; an unset field
imposes no constraint, and `category = All` also imposes none. -/
def filterPrograms (programs : List Program) (filters : ProgramFilters) : List Program :=
  programs.filter fun p =>
    (match filters.category with
     | some c => if c ≠ Category.All then getCategoryFromProgram p = c else true
     | none => true) &&
    (match filters.language with
     | some l => p.language = l
     | none => true) &&
    (match filters.minStars with
     | some lo => !(p.stars < lo)
     | none => true) &&
    (match filters.maxStars with
     | some hi => !(hi < p.stars)
     | none => true)

/-! ## `src/lib/db.ts` — read path / fallback resolver

The first revision of `db.ts` (the one whose `getProgramsData` the spec
describes): try the relational store, fall back to the bundled JSON
(`rawData`, here the parameter `raw`) on any failure, empty schema,
missing table or zero rows.  The database is modelled as `DbEnv`: the
observable outcome of each query the function issues, `Except Unit`
encoding a thrown error.  `initDatabase` and `seedDatabaseIfEmpty`
swallow their own errors and only mutate store state; their effect is
reflected in the answers `DbEnv` gives to the later queries. -/

/-- One row of the `programs` table as seen by the row mapper; a column
absent from the probed schema (or NULL) is `none`. -/
structure DbRow where
  id : Option String := none
  name : Option String := none
  description : Option String := none
  url : Option String := none
  owner : Option String := none
  language : Option String := none
  stars : Option Nat := none
  topics : Option (List String) := none
  created_at : Option String := none
deriving DecidableEq, Repr

/-- The environment of database interactions `getProgramsData` performs. -/
structure DbEnv where
  /-- `pool.connect()`: `.error` = connection failure (e.g. timeout). -/
  connect : Except Unit Unit
  /-- the `information_schema.tables` existence probe. -/
  tableExists : Except Unit Bool
  /-- the `information_schema.columns` probe. -/
  columns : Except Unit (List String)
  /-- the final `SELECT … FROM programs` for the given field list. -/
  queryRows : List String → Except Unit (List DbRow)
  /-- `new Date().toISOString()`. -/
  nowIso : String
  /-- `new Date(s).toISOString()` for a stored timestamp `s`. -/
  dateIso : String → String

/-- The probe order of `getProgramsData`'s dynamic column selection. -/
def dbColumnOrder : List String :=
  ["id", "name", "description", "repo_url", "owner", "language",
   "stars", "topics", "category", "created_at"]

/-- Build the `selectFields` list from the columns present in the live
schema (`if (columns.includes(c)) selectFields.push(…)`). -/
def buildSelectFields (columns : List String) : List String :=
  dbColumnOrder.filter (fun c => columns.contains c)

/-- The row-to-`Program` mapping of `getProgramsData`.  JS notes:
`row.owner ? `…` : row.name || row.id` interpolates `undefined` as the
literal string `"undefined"` inside a template literal; a string field
left `undefined` by the `||` chain is read as `""` (`jsStr`). -/
def rowToProgram (env : DbEnv) (row : DbRow) : Program :=
  { fullName :=
      if jsTruthy row.owner then
        jsStr row.owner ++ "/" ++ (row.name.getD "undefined")
      else jsStr (jsOrStr row.name row.id)
    owner := jsStr (jsOrStr row.owner (some ""))
    name := jsStr (jsOrStr row.name (jsOrStr row.id (some "")))
    url := jsStr (jsOrStr row.url (some ""))
    description := jsStr (jsOrStr row.description (some ""))
    stars := row.stars.getD 0
    language := jsStr (jsOrStr row.language (some "Unknown"))
    updated := match row.created_at with
      | some t => if t ≠ "" then env.dateIso t else env.nowIso
      | none => env.nowIso
    topics := row.topics.getD [] }

/-- Result of the `try`-block body of `getProgramsData`: either a thrown
error (`Except.error`), an early `return getFallbackData()` (`fellBack`),
or a snapshot built from database rows (`fresh`). -/
inductive DbInnerResult where
  | fellBack
  | fresh (d : ProgramsData)
deriving Repr

/-- The `try`-block of `getProgramsData` (first revision of
`src/lib/db.ts`, lines 96–179): missing table, empty select-field list
and zero rows each fall back; any thrown query error propagates to the
outer `catch`. -/
def getProgramsDataInner (env : DbEnv) : Except Unit DbInnerResult :=
  match env.connect with
  | .error e => .error e
  | .ok _ =>
    match env.tableExists with
    | .error e => .error e
    | .ok false => .ok .fellBack
    | .ok true =>
      match env.columns with
      | .error e => .error e
      | .ok cols =>
        let selectFields := buildSelectFields cols
        if selectFields = [] then .ok .fellBack
        else
          match env.queryRows selectFields with
          | .error e => .error e
          | .ok [] => .ok .fellBack
          | .ok rows =>
            let repos := rows.map (rowToProgram env)
            .ok (.fresh { scrapedAt := env.nowIso, totalRepos := repos.length,
                          keywordsSearched := [], repos := repos })

/-- The module-level cache of `db.ts` (`cachedData` / `lastFetch`). -/
structure DbCache where
  cachedData : Option ProgramsData
  lastFetch : Int
deriving Repr

/-- `CACHE_TTL` of `db.ts` (5 minutes, in ms). -/
def CACHE_TTL : Int := 5 * 60 * 1000

/-- The cache-miss body of `getProgramsData`: run the `try` block; a
database-built snapshot is cached, the fallback (whether by early
`return` or by the outer `catch`) is returned without touching the
cache. -/
def getProgramsDataRun (raw : ProgramsData) (st : DbCache) (env : DbEnv)
    (now : Int) : ProgramsData × DbCache :=
  match getProgramsDataInner env with
  | .ok (.fresh d) => (d, { cachedData := some d, lastFetch := now })
  | .ok .fellBack => (raw, st)
  | .error _ => (raw, st)

/-- `getProgramsData` from `src/lib/db.ts` (first revision): returns the
snapshot and the updated module cache.  `raw` is the bundled JSON import
(`rawData`), which `getFallbackData()` returns; the outer `catch` maps
every thrown error to that fallback. -/
def getProgramsData (raw : ProgramsData) (st : DbCache) (env : DbEnv)
    (now : Int) : ProgramsData × DbCache :=
  match st.cachedData with
  | some d =>
    if now - st.lastFetch < CACHE_TTL then (d, st)
    else getProgramsDataRun raw st env now
  | none => getProgramsDataRun raw st env now

/-! ## Discovery scripts — categorizers and the deduplicating merge

`src/scripts/batch-discovery.js`, `src/scripts/high-value-discovery.js`
and the unnamed automated-discovery script (`src/unnamed/part_009`,
`categorizeProgram` / `filterNewPrograms` / `runDiscovery`). -/

/-- A discovered program record as built by the discovery scripts and
stored in `data/github-solana-programs.json`. -/
structure StoredProgram where
  fullName : String
  owner : String
  name : String
  url : String
  description : Option String
  stars : Nat
  language : Option String
  updated : String
  topics : List String
  defaultBranch : String
  category : String
  subCategory : Option String := none
  discoveredAt : String
deriving DecidableEq, Repr

/-- The classification text: `` `${name} ${description || ''} ${(topics
|| []).join(' ')}`.toLowerCase() ``, shared by all discovery
categorizers. -/
def discoveryText (name : String) (description : Option String)
    (topics : List String) : String :=
  jsToLower (name ++ " " ++ jsStr (jsOrStr description (some "")) ++ " "
    ++ String.intercalate " " topics)

/-- `categorize` from `src/scripts/batch-discovery.js` (lines 52–62).
Note the final default is the string `"DeFi"`. -/
def batchCategorize (name : String) (description : Option String)
    (topics : List String) : String :=
  let text := discoveryText name description topics
  if jsIncludes text "dex" || jsIncludes text "swap" || jsIncludes text "amm" then "DEX"
  else if jsIncludes text "nft" || jsIncludes text "metaplex" then "NFT"
  else if jsIncludes text "lend" || jsIncludes text "borrow" || jsIncludes text "yield" then "Lending"
  else if jsIncludes text "stake" || jsIncludes text "validator" then "Staking"
  else if jsIncludes text "governance" || jsIncludes text "dao" then "Governance"
  else if jsIncludes text "trading" || jsIncludes text "bot" then "Trading"
  else if jsIncludes text "wallet" || jsIncludes text "adapter" then "Infrastructure"
  else "DeFi"

/-- The substrings tested by `batchCategorize`'s rules, in order. -/
def batchCategorizePatterns : List String :=
  ["dex", "swap", "amm", "nft", "metaplex", "lend", "borrow", "yield",
   "stake", "validator", "governance", "dao", "trading", "bot",
   "wallet", "adapter"]

/-- `categorize` from `src/scripts/high-value-discovery.js`
(lines 26–38); its default is also `"DeFi"`. -/
def highValueCategorize (name : String) (description : Option String)
    (topics : List String) : String :=
  let text := discoveryText name description topics
  if jsIncludes text "percolator" || jsIncludes text "pumpfun" || jsIncludes text "sniper" then "Trading"
  else if jsIncludes text "mev" || jsIncludes text "arbitrage" || jsIncludes text "sandwich" then "Trading"
  else if jsIncludes text "jupiter" then "DEX"
  else if jsIncludes text "raydium" || jsIncludes text "clmm" then "DEX"
  else if jsIncludes text "metaplex" || jsIncludes text "metadata" then "NFT"
  else if jsIncludes text "pay" || jsIncludes text "payment" then "DeFi"
  else if jsIncludes text "drift" then "Trading"
  else if jsIncludes text "mango" then "Lending"
  else if jsIncludes text "bot" then "Trading"
  else "DeFi"

/-- The substrings tested by `highValueCategorize`'s rules, in order. -/
def highValueCategorizePatterns : List String :=
  ["percolator", "pumpfun", "sniper", "mev", "arbitrage", "sandwich",
   "jupiter", "raydium", "clmm", "metaplex", "metadata", "pay",
   "payment", "drift", "mango", "bot"]

/-- `categorizeProgram` from the automated-discovery script
(`src/unnamed/part_009`, lines 60–73); its default is
`"Infrastructure"`. -/
def categorizeProgram (name : String) (description : Option String)
    (topics : List String) : String :=
  let text := discoveryText name description topics
  if jsIncludes text "dex" || jsIncludes text "swap" || jsIncludes text "amm" then "DEX"
  else if jsIncludes text "nft" || jsIncludes text "metaplex" || jsIncludes text "token" then "NFT"
  else if jsIncludes text "lend" || jsIncludes text "borrow" || jsIncludes text "yield" then "Lending"
  else if jsIncludes text "stake" || jsIncludes text "validator" then "Staking"
  else if jsIncludes text "governance" || jsIncludes text "dao" || jsIncludes text "vote" then "Governance"
  else if jsIncludes text "trading" || jsIncludes text "bot" || jsIncludes text "sniper" then "Trading"
  else if jsIncludes text "wallet" || jsIncludes text "adapter" then "Infrastructure"
  else if jsIncludes text "bridge" || jsIncludes text "cross-chain" then "DeFi"
  else "Infrastructure"

/-- `CONFIG.minStars` / `MIN_STARS` of the discovery scripts. -/
def MIN_STARS : Nat := 50

/-- `CONFIG.languages` of the discovery scripts. -/
def DISCOVERY_LANGUAGES : List String := ["Rust", "TypeScript", "JavaScript"]

/-- JS `CONFIG.languages.includes(p.language)` where `language` may be
`null`. -/
def languageAllowed : Option String → Bool
  | some l => DISCOVERY_LANGUAGES.contains l
  | none => false

/-- The per-record validity test of `filterNewPrograms`
(`src/unnamed/part_009`, lines 148–156); the same conditions (minus the
fork checks) form the `validItems` filter of `batch-discovery.js`'s
`run` (lines 116–121).  The existing-identity lookup is the exact,
case-sensitive `fullName` (`existingSet.has(p.fullName)`). -/
def isNewProgram (existingSet : List String) (p : StoredProgram) : Bool :=
  if existingSet.contains p.fullName then false
  else if p.stars < MIN_STARS then false
  else if !languageAllowed p.language then false
  else if jsEndsWith p.name "-fork" || jsIncludes p.name "fork-" then false
  else true

/-- `filterNewPrograms(found, existingSet)` from `src/unnamed/part_009`:
keep the records of the incoming batch that pass `isNewProgram` against
the (fixed) set of existing identities. -/
def filterNewPrograms (found : List StoredProgram)
    (existingSet : List String) : List StoredProgram :=
  found.filter (isNewProgram existingSet)

/-- The merge a discovery run performs for one incoming batch:
`existingSet = new Set(existing.map(p => p.fullName))`, filter the batch
against it, and append the survivors
(`const updated = [...existing, ...newPrograms]`).  This is the merge
operation of `run` / `runDiscovery` without the per-run
`TARGET_NEW` / `maxNewProgramsPerRun` budget cap. -/
def mergePrograms (existing : List StoredProgram)
    (found : List StoredProgram) : List StoredProgram :=
  existing ++ filterNewPrograms found (existing.map (·.fullName))

/-! ## JSON → relational sync (`syncJsonToNeon`)

The unnamed sync script (`src/unnamed/part_011`): for each JSON record
it decides skip / update / insert against the set of identities already
in the relational store, lowercasing both sides. -/

/-- The action `syncJsonToNeon` takes for one JSON record. -/
inductive SyncAction where
  | skip | update | insert
deriving DecidableEq, Repr

/-- The update-vs-insert decision of `syncJsonToNeon` (lines 51–113):
`existingLower` is `new Set(rows.map(r => r.full_name.toLowerCase()))`;
a record without a truthy `fullName` is skipped, one whose lowercased
`fullName` is present is updated, otherwise it is inserted. -/
def syncDecide (existingLower : List String) (fullName : Option String) :
    SyncAction :=
  if !jsTruthy fullName then .skip
  else if existingLower.contains (jsToLower (jsStr fullName)) then .update
  else .insert

/-! ## `src/lib/fetch-code.ts` — source browser and its cache

Directory listings (`scanDirectory`) and raw-content fetches
(`fetchFileContent`) are modelled as environment functions returning
`Except Unit _` (a thrown error is `.error`).  The recursion of
`scanPath` is depth-bounded in the source (`depth > 3` returns, and
subdirectories recurse only when `depth < 3`), so it is embedded with a
fuel argument instantiated with `4 - depth`, which is enough fuel for
every reachable depth. -/

/-- `GitHubFile` from `src/lib/fetch-code.ts`; `ftype` embeds the field
`type` (`"file"` or `"dir"`). -/
structure GitHubFile where
  name : String
  path : String
  ftype : String
  download_url : Option String
  html_url : String
  size : Nat
deriving DecidableEq, Repr

/-- `PRIORITY_DIRS` from `src/lib/fetch-code.ts`. -/
def PRIORITY_DIRS : List String := ["src", "programs", "contracts", "program", "anchor"]

/-- `CODE_EXTENSIONS` from `src/lib/fetch-code.ts`. -/
def CODE_EXTENSIONS : List String :=
  [".rs", ".ts", ".tsx", ".js", ".jsx", ".sol", ".py", ".go", ".c", ".cpp", ".h"]

/-- `MAX_FILE_SIZE` (100 KB) from `src/lib/fetch-code.ts`. -/
def MAX_FILE_SIZE : Nat := 100 * 1024

/-- `MAX_FILES` from `src/lib/fetch-code.ts`. -/
def MAX_FILES : Nat := 20

/-- The `isCodeFile` helper of `findCodeFiles`: a file entry, not larger
than `MAX_FILE_SIZE` (the test rejects only `size > MAX_FILE_SIZE`),
whose name ends with a recognized code extension. -/
def isCodeFile (file : GitHubFile) : Bool :=
  if file.ftype ≠ "file" then false
  else if MAX_FILE_SIZE < file.size then false
  else CODE_EXTENSIONS.any (fun e => jsEndsWith file.name e)

/-- The mutable state shared by `findCodeFiles`' helpers: the collected
files (`allFiles`) and the visited-path set (`scannedPaths`). -/
structure ScanState where
  allFiles : List GitHubFile
  scannedPaths : List String
deriving Repr

/-- The directory-listing environment: `scanDirectory(owner, repo, path)`
for the one repository under scan. -/
def DirEnv : Type := String → Except Unit (List GitHubFile)

/-- The `for (const item of contents)` loop body of `scanPath`:
collect code files (stopping at `MAX_FILES`) and recurse into
subdirectories when `depth < 3` via `recurse` (the properly fuelled
`scanPath` at `depth + 1`). -/
def scanItems (recurse : String → ScanState → ScanState) (depth : Nat) :
    List GitHubFile → ScanState → ScanState
  | [], st => st
  | item :: rest, st =>
    if item.ftype = "file" && isCodeFile item then
      let st2 := { st with allFiles := st.allFiles ++ [item] }
      if MAX_FILES ≤ st2.allFiles.length then st2
      else scanItems recurse depth rest st2
    else if item.ftype = "dir" && depth < 3 then
      let st2 := recurse item.path st
      if MAX_FILES ≤ st2.allFiles.length then st2
      else scanItems recurse depth rest st2
    else scanItems recurse depth rest st

/-- The `scanPath(dirPath, depth)` helper of `findCodeFiles`, with fuel:
stop above depth 3, at `MAX_FILES`, or on an already-visited path; mark
the path visited; a listing error is caught and ignored.  Called with
`fuel = 4 - depth`, so the fuel never runs out before the depth guard. -/
def scanPathF (env : DirEnv) : Nat → Nat → String → ScanState → ScanState
  | 0, _, _, st => st
  | fuel + 1, depth, dirPath, st =>
    if 3 < depth then st
    else if MAX_FILES ≤ st.allFiles.length then st
    else if st.scannedPaths.contains dirPath then st
    else
      let st1 := { st with scannedPaths := st.scannedPaths ++ [dirPath] }
      match env dirPath with
      | .error _ => st1
      | .ok contents => scanItems (scanPathF env fuel (depth + 1)) depth contents st1

/-- The root-scan loop of `findCodeFiles` (lines 150–166): collect root
code files not already found (by path), and scan non-priority root
subdirectories at depth 1. -/
def scanRootItems (env : DirEnv) : List GitHubFile → ScanState → ScanState
  | [], st => st
  | item :: rest, st =>
    if item.ftype = "file" && isCodeFile item
        && !(st.allFiles.any (fun f => f.path = item.path)) then
      let st2 := { st with allFiles := st.allFiles ++ [item] }
      if MAX_FILES ≤ st2.allFiles.length then st2
      else scanRootItems env rest st2
    else if item.ftype = "dir" && !PRIORITY_DIRS.contains item.name then
      let st2 := scanPathF env 3 1 item.path st
      if MAX_FILES ≤ st2.allFiles.length then st2
      else scanRootItems env rest st2
    else scanRootItems env rest st

/-- The scan state after `findCodeFiles`' priority-directory loop
(lines 140–147): scan each of `PRIORITY_DIRS` at depth 0, breaking once
`MAX_FILES` files are collected. -/
def findCodeFilesP (env : DirEnv) : ScanState :=
  PRIORITY_DIRS.foldl
    (fun st p =>
      if MAX_FILES ≤ st.allFiles.length then st
      else scanPathF env 4 0 p st)
    { allFiles := [], scannedPaths := [] }

/-- The scan state after `findCodeFiles`' optional root scan
(lines 150–166): performed only when the priority scan found fewer than
`MAX_FILES` files; a root-listing error is swallowed. -/
def findCodeFilesR (env : DirEnv) : ScanState :=
  let stP := findCodeFilesP env
  if stP.allFiles.length < MAX_FILES then
    match env "" with
    | .error _ => stP
    | .ok rootContents => scanRootItems env rootContents stP
  else stP

/-- `findCodeFiles` from `src/lib/fetch-code.ts` (lines 100–169): scan
the priority directories, then the repository root if fewer than
`MAX_FILES` files were found; every listing error is swallowed; return
at most `MAX_FILES` files. -/
def findCodeFiles (env : DirEnv) : List GitHubFile :=
  (findCodeFilesR env).allFiles.take MAX_FILES

/-- `RepoFile` from `src/lib/fetch-code.ts`. -/
structure RepoFile where
  name : String
  path : String
  content : String
  language : String
deriving DecidableEq, Repr

/-- `RepoContent` from `src/lib/fetch-code.ts`. -/
structure RepoContent where
  owner : String
  repo : String
  files : List RepoFile
  fileTree : List GitHubFile
  fetchedAt : String
deriving DecidableEq, Repr

/-- `getLanguageFromExtension` from `src/lib/fetch-code.ts`. -/
def getLanguageFromExtension (filename : String) : String :=
  let ext := jsToLower (match (filename.splitOn ".").getLast? with
    | some e => e
    | none => "")
  if ext = "rs" then "rust"
  else if ext = "ts" then "typescript"
  else if ext = "tsx" then "tsx"
  else if ext = "js" then "javascript"
  else if ext = "jsx" then "jsx"
  else if ext = "sol" then "solidity"
  else if ext = "py" then "python"
  else if ext = "go" then "go"
  else if ext = "c" then "c"
  else if ext = "cpp" then "cpp"
  else if ext = "h" then "c"
  else if ext = "hpp" then "cpp"
  else "text"

/-- The full environment of one `fetchRepoCode` network pass. -/
structure FetchEnv where
  /-- `scanDirectory` outcomes, by path (`""` is the repository root). -/
  dirs : DirEnv
  /-- `fetchFileContent` outcomes, by `download_url`. -/
  fileContent : String → Except Unit String
  /-- `new Date().toISOString()`. -/
  nowIso : String

/-- The per-file content-fetch loop of `fetchRepoCode` (lines 186–200):
files without a `download_url` are skipped, a failed fetch is caught and
skipped, a fetched file is appended. -/
def fetchFilesLoop (env : FetchEnv) : List GitHubFile → List RepoFile → List RepoFile
  | [], acc => acc
  | file :: rest, acc =>
    match file.download_url with
    | none => fetchFilesLoop env rest acc
    | some u =>
      match env.fileContent u with
      | .error _ => fetchFilesLoop env rest acc
      | .ok content =>
        fetchFilesLoop env rest
          (acc ++ [{ name := file.name, path := file.path, content := content,
                     language := getLanguageFromExtension file.name }])

/-- The cache-miss path of `fetchRepoCode` (lines 180–213): find the
code files, fetch each file's content, assemble the `RepoContent`. -/
def fetchRepoCodeFresh (env : FetchEnv) (owner repo : String) : RepoContent :=
  let fileTree := findCodeFiles env.dirs
  let files := fetchFilesLoop env fileTree []
  { owner := owner, repo := repo, files := files, fileTree := fileTree,
    fetchedAt := env.nowIso }

/-! ### The server-side code cache (`getCachedData` / `setCachedData`)

The filesystem under `CACHE_DIR` is a map from cache key to the stored
file: its `mtime` and the result of `JSON.parse` on its content
(`.error` = malformed JSON).  Every fault — missing file, unreadable
file, malformed JSON — is caught and turned into `null`. -/

/-- `CacheEntry<T>` from the server-side code cache. -/
structure CacheEntry (α : Type) where
  timestamp : Int
  data : α
deriving DecidableEq, Repr

/-- A cache file on disk, as the reader observes it: the stat `mtime`
and the parse outcome of its content. -/
structure CacheFile (α : Type) where
  mtime : Int
  parsed : Except Unit (CacheEntry α)
deriving Repr

/-- The cache-directory state. -/
def CacheFs (α : Type) : Type := String → Option (CacheFile α)

/-- `CACHE_DURATION_MS` (24 hours) from the server-side code cache. -/
def CACHE_DURATION_MS : Int := 24 * 60 * 60 * 1000

/-- `getCachedData` from the server-side code cache (lines 235–252 of
the combined `fetch-code.ts` file): a missing file (`fs.stat` throws),
an entry older than `CACHE_DURATION_MS`, or malformed JSON all yield
`none` (JS `null`). -/
def getCachedData {α : Type} (fs : CacheFs α) (now : Int) (key : String) :
    Option α :=
  match fs key with
  | none => none
  | some file =>
    if CACHE_DURATION_MS < now - file.mtime then none
    else
      match file.parsed with
      | .error _ => none
      | .ok entry => some entry.data

/-- `setCachedData` from the server-side code cache (lines 254–266):
write a fresh entry; any write failure (`writeOk = false`) is caught and
the cache directory is left as it was — the function itself always
returns normally. -/
def setCachedData {α : Type} (fs : CacheFs α) (writeOk : Bool) (now : Int)
    (key : String) (data : α) : CacheFs α :=
  if writeOk then
    fun k => if k = key then
        some { mtime := now, parsed := .ok { timestamp := now, data := data } }
      else fs k
  else fs

/-- `generateCacheKey` from the server-side code cache. -/
def generateCacheKey (owner repo ctype : String) : String :=
  owner ++ "-" ++ repo ++ "-" ++ ctype

/-- `fetchRepoCode` from `src/lib/fetch-code.ts` (lines 171–214) with
the cache state made explicit: serve a fresh cached entry, otherwise
compute the fresh result and cache it (the write may fail; the returned
value is the fresh result either way). -/
def fetchRepoCodeRun (fs : CacheFs RepoContent) (writeOk : Bool)
    (env : FetchEnv) (now : Int) (owner repo : String) :
    RepoContent × CacheFs RepoContent :=
  let cacheKey := generateCacheKey owner repo "code"
  match getCachedData fs now cacheKey with
  | some cached => (cached, fs)
  | none =>
    let result := fetchRepoCodeFresh env owner repo
    (result, setCachedData fs writeOk now cacheKey result)

/-! ## Helper lemmas -/

/-- The empty pattern occurs in every string. -/
theorem containsChars_nil (l : List Char) : containsChars [] l = true := by
  cases l <;> simp [containsChars, startsWithChars]

/-- JS `s.includes("")` is always `true`. -/
theorem jsIncludes_empty (s : String) : jsIncludes s "" = true := by
  simpa [jsIncludes] using containsChars_nil s.toList

/-- A list filters to itself under a pointwise-true predicate. -/
theorem filter_eq_self_of_true {α : Type} (p : α → Bool) (l : List α)
    (h : ∀ a ∈ l, p a = true) : l.filter p = l := by
  induction l with
  | nil => rfl
  | cons a t ih =>
    simp only [List.filter_cons, h a (List.mem_cons_self a t)]
    exact congrArg (a :: ·) (ih fun b hb => h b (List.mem_cons_of_mem a hb))

/-- A list filters to nil under a pointwise-false predicate. -/
theorem filter_eq_nil_of_false {α : Type} (p : α → Bool) (l : List α)
    (h : ∀ a ∈ l, p a = false) : l.filter p = [] := by
  induction l with
  | nil => rfl
  | cons a t ih =>
    simp only [List.filter_cons, h a (List.mem_cons_self a t)]
    exact ih fun b hb => h b (List.mem_cons_of_mem a hb)

/-! ## Claim theorems -/

/-- The all-unset `filters` value (`{}` in the spec's `filter(C, {})`). -/
def emptyFilters : ProgramFilters := {}

/-- C9: the query engine's empty arguments are identities — for every
record list `C`, `searchPrograms C "" = C` (the empty query matches every
record) and `filterPrograms C {} = C` (every unset filter field imposes
no constraint). -/
theorem search_and_filter_empty_identity (C : List Program) :
    searchPrograms C "" = C ∧ filterPrograms C emptyFilters = C := by
  constructor
  · unfold searchPrograms
    refine filter_eq_self_of_true _ C fun p _ => ?_
    have h0 : jsToLower "" = "" := rfl
    simp [h0, jsIncludes_empty]
  · unfold filterPrograms
    exact filter_eq_self_of_true _ C fun p _ => rfl

/-- C7: an entry whose file is older than the 24-hour TTL at read time
is treated as absent — `getCachedData` returns `none` whenever the
stored file's age `now - mtime` exceeds `CACHE_DURATION_MS`, regardless
of the file's content. -/
theorem getCachedData_expired_absent {α : Type} (fs : CacheFs α) (now : Int)
    (key : String) (file : CacheFile α) (hfile : fs key = some file)
    (hold : CACHE_DURATION_MS < now - file.mtime) :
    getCachedData fs now key = none := by
  simp [getCachedData, hfile, hold]

/-- An expired cache file with arbitrary well-formed content. -/
def expiredCacheFile : CacheFile Nat :=
  { mtime := 0, parsed := .ok { timestamp := 0, data := 5 } }

/-- Witness for C7: a concrete cache state holding a well-formed entry
whose file is 1 ms older than the TTL; the read returns `none`. -/
theorem getCachedData_expired_absent_witness :
    getCachedData (fun _ => some expiredCacheFile) (CACHE_DURATION_MS + 1) "k" = none :=
  getCachedData_expired_absent (fun _ => some expiredCacheFile)
    (CACHE_DURATION_MS + 1) "k" expiredCacheFile rfl (by decide)

/-- C10: the cache layer is total and error-absorbing — a missing cache
file reads as `none`, a file with malformed JSON reads as `none`, and
the value `fetchRepoCode` returns does not depend on whether the
cache write succeeds. -/
theorem cache_total_and_absorbing :
    (∀ (fs : CacheFs RepoContent) (now : Int) (key : String),
      fs key = none → getCachedData fs now key = none) ∧
    (∀ (fs : CacheFs RepoContent) (now : Int) (key : String)
        (file : CacheFile RepoContent),
      fs key = some file → file.parsed = .error () →
      getCachedData fs now key = none) ∧
    (∀ (fs : CacheFs RepoContent) (env : FetchEnv) (now : Int)
        (owner repo : String),
      (fetchRepoCodeRun fs true env now owner repo).1 =
        (fetchRepoCodeRun fs false env now owner repo).1) := by
  refine ⟨fun fs now key h => ?_, fun fs now key file hf hp => ?_,
    fun fs env now owner repo => ?_⟩
  · simp [getCachedData, h]
  · simp only [getCachedData, hf, hp]
    split <;> rfl
  · unfold fetchRepoCodeRun
    cases h : getCachedData fs now (generateCacheKey owner repo "code") <;> simp [h]

/-- A cache file whose content is malformed JSON. -/
def malformedCacheFile : CacheFile RepoContent :=
  { mtime := 0, parsed := .error () }

/-- A network environment in which every directory listing and every
raw-content fetch throws (a total fetch failure). -/
def allFailFetchEnv : FetchEnv :=
  { dirs := fun _ => .error (), fileContent := fun _ => .error (),
    nowIso := "2024-01-01T00:00:00.000Z" }

/-- Witness for C10: the three parts applied at concrete cache states —
an empty cache, a cache holding a malformed entry, and a fetch run over
an all-failing network with the cache write failing. -/
theorem cache_total_and_absorbing_witness :
    getCachedData (fun _ => none : CacheFs RepoContent) 0 "k" = none ∧
    getCachedData (fun _ => some malformedCacheFile) 0 "k" = none ∧
    (fetchRepoCodeRun (fun _ => none) true allFailFetchEnv 0 "o" "r").1 =
      (fetchRepoCodeRun (fun _ => none) false allFailFetchEnv 0 "o" "r").1 :=
  ⟨cache_total_and_absorbing.1 (fun _ => none) 0 "k" rfl,
   cache_total_and_absorbing.2.1 (fun _ => some malformedCacheFile) 0 "k"
     malformedCacheFile rfl rfl,
   cache_total_and_absorbing.2.2 (fun _ => none) allFailFetchEnv 0 "o" "r"⟩

/-- `isNewProgram` factored: the existing-identity test and the
set-independent validity conditions are separate conjuncts. -/
theorem isNewProgram_factor (existingSet : List String) (p : StoredProgram) :
    isNewProgram existingSet p =
      (!existingSet.contains p.fullName && isNewProgram [] p) := by
  by_cases h : existingSet.contains p.fullName = true
  · simp [isNewProgram, h]
  · simp only [Bool.not_eq_true] at h
    simp [isNewProgram, h]

/-- C2: the discovery merge is idempotent — merging the same incoming
batch a second time appends nothing and changes nothing:
`merge(merge(S,B),B) = merge(S,B)`.  Every batch record either survived
the first merge (so its exact `fullName` is now among the existing
identities and it is filtered out) or was rejected for a reason that
re-merging does not change. -/
theorem mergePrograms_idempotent (S B : List StoredProgram) :
    mergePrograms (mergePrograms S B) B = mergePrograms S B := by
  have key : ∀ p ∈ B,
      isNewProgram ((mergePrograms S B).map (·.fullName)) p = false := by
    intro p hp
    rw [isNewProgram_factor]
    by_cases hmem : p.fullName ∈ (mergePrograms S B).map (·.fullName)
    · have : ((mergePrograms S B).map (·.fullName)).contains p.fullName = true := by
        simpa using hmem
      rw [this]; rfl
    · cases hrest : isNewProgram [] p with
      | false => simp [hrest]
      | true =>
        exfalso
        have hS : (S.map (·.fullName)).contains p.fullName = false := by
          by_contra h
          have h' : p.fullName ∈ S.map (·.fullName) := by
            simpa using Bool.not_eq_false _ |>.mp h
          exact hmem (by
            unfold mergePrograms
            rw [List.map_append]
            exact List.mem_append_left _ h')
        have hpass : isNewProgram (S.map (·.fullName)) p = true := by
          rw [isNewProgram_factor, hS, hrest]; rfl
        have hpF : p ∈ filterNewPrograms B (S.map (·.fullName)) :=
          List.mem_filter.mpr ⟨hp, hpass⟩
        exact hmem (by
          unfold mergePrograms
          rw [List.map_append]
          exact List.mem_append_right _ (List.mem_map_of_mem _ hpF))
  have hnil : filterNewPrograms B ((mergePrograms S B).map (·.fullName)) = [] :=
    filter_eq_nil_of_false _ _ key
  have hgoal : mergePrograms (mergePrograms S B) B =
      mergePrograms S B ++
        filterNewPrograms B ((mergePrograms S B).map (·.fullName)) := rfl
  rw [hgoal, hnil, List.append_nil]

/-- The incoming record `{fullName:"a/x", stars:10}` of the spec's
batch-collision scenario (language Rust so only the star count can
reject it). -/
def recordAX10 : StoredProgram :=
  { fullName := "a/x", owner := "a", name := "x", url := "https://github.com/a/x",
    description := none, stars := 10, language := some "Rust",
    updated := "2024-01-01T00:00:00Z", topics := [], defaultBranch := "main",
    category := "DeFi", discoveredAt := "2024-01-01T00:00:00Z" }

/-- The colliding record `{fullName:"a/x", stars:20}`. -/
def recordAX20 : StoredProgram := { recordAX10 with stars := 20 }

/-- A qualifying variant of the first colliding record (stars 100). -/
def recordAX100 : StoredProgram := { recordAX10 with stars := 100 }

/-- A qualifying variant of the second colliding record (stars 200). -/
def recordAX200 : StoredProgram := { recordAX10 with stars := 200 }

/-- C3 counterexample: merging `[{fullName:"a/x", stars:10},
{fullName:"a/x", stars:20}]` in sequence (two successive merges into an
empty store, or both in one batch) leaves the store with NO record for
"a/x" at all — both records fail the `stars < 50` minimum — so the store
does not end with one record whose stars equal 20. -/
theorem merge_collision_counterexample :
    mergePrograms (mergePrograms [] [recordAX10]) [recordAX20] = [] ∧
    mergePrograms [] [recordAX10, recordAX20] = [] ∧
    ¬ (mergePrograms (mergePrograms [] [recordAX10]) [recordAX20]).map
        (·.stars) = [20] := by
  decide

/-- C3 amended: records below the 50-star minimum are rejected outright,
so the literal stars-10/20 collision ends with no "a/x" record.  For
records that pass validation, a batch-internal identity collision is NOT
resolved last-in-batch-wins: merging in sequence keeps the FIRST record
(the second is skipped because its `fullName` is by then an existing
identity), and merging both inside one batch appends BOTH (the filter
consults the existing-identity set built before the batch). -/
theorem merge_collision_amended :
    mergePrograms (mergePrograms [] [recordAX100]) [recordAX200] = [recordAX100] ∧
    mergePrograms [] [recordAX100, recordAX200] = [recordAX100, recordAX200] ∧
    mergePrograms (mergePrograms [] [recordAX10]) [recordAX20] = [] := by
  decide

/-- A qualifying existing record with upper-case identity "A/X". -/
def recordUpperAX : StoredProgram := { recordAX100 with fullName := "A/X" }

/-- C4 counterexample: the merge's identity lookup is case-SENSITIVE —
an incoming qualifying record whose `fullName` "a/x" differs from the
existing "A/X" only in letter case is not treated as present and is
appended, leaving the persisted catalog with two records whose
identities differ only in case. -/
theorem merge_caseSensitive_counterexample :
    (mergePrograms [recordUpperAX] [recordAX100]).map (·.fullName) =
        ["A/X", "a/x"] ∧
    jsToLower "A/X" = jsToLower "a/x" := by
  decide

/-- C4 amended: only the JSON→relational sync compares identities
case-insensitively — `syncJsonToNeon` lowercases both the existing
identities and the incoming `fullName` before its update-vs-insert
decision, so a case-variant of a stored identity is updated, not
re-inserted.  The JSON-side merge, by contrast, compares `fullName`
case-sensitively: a qualifying incoming record whose exact `fullName` is
absent is appended even when a case-variant of it already exists. -/
theorem sync_caseInsensitive_merge_caseSensitive :
    (∀ (existingLower : List String) (fn : String), fn ≠ "" →
      existingLower.contains (jsToLower fn) = true →
      syncDecide existingLower (some fn) = SyncAction.update) ∧
    (∀ (S : List StoredProgram) (p : StoredProgram),
      (S.map (·.fullName)).contains p.fullName = false →
      MIN_STARS ≤ p.stars →
      languageAllowed p.language = true →
      jsEndsWith p.name "-fork" = false →
      jsIncludes p.name "fork-" = false →
      mergePrograms S [p] = S ++ [p]) := by
  constructor
  · intro existingLower fn hne hmem
    have ht : jsTruthy (some fn) = true := by
      simp [jsTruthy, hne]
    have hmem' : jsToLower fn ∈ existingLower := by simpa using hmem
    simp [syncDecide, ht, jsStr, hmem']
  · intro S p hset hstars hlang hfork1 hfork2
    have hset' : p.fullName ∉ S.map (·.fullName) := by simpa using hset
    have hnew : isNewProgram (S.map (·.fullName)) p = true := by
      simp [isNewProgram, hset', hlang, hfork1, hfork2, Nat.not_lt.mpr hstars]
    have hfil : List.filter (isNewProgram (S.map (·.fullName))) [p] = [p] := by
      simp [List.filter_cons, hnew]
    unfold mergePrograms filterNewPrograms
    rw [hfil]

/-- Witness for the C4 amended theorem: the sync treats incoming "A/X"
as already present in a store that holds "a/x" (update, not insert),
while the JSON merge appends "a/x" next to the existing "A/X". -/
theorem sync_caseInsensitive_merge_caseSensitive_witness :
    syncDecide ["a/x"] (some "A/X") = SyncAction.update ∧
    mergePrograms [recordUpperAX] [recordAX100] =
      [recordUpperAX, recordAX100] :=
  ⟨sync_caseInsensitive_merge_caseSensitive.1 ["a/x"] "A/X" (by decide) (by decide),
   sync_caseInsensitive_merge_caseSensitive.2 [recordUpperAX] recordAX100
     (by decide) (by decide) (by decide) (by decide) (by decide)⟩

/-- The substrings tested by `getCategoryFromTopics`'s rules, in order. -/
def topicRulePatterns : List String :=
  ["nft", "metaplex", "digital-assets", "lending", "borrow", "loan",
   "staking", "stake", "dex", "amm", "swap", "liquidity", "governance",
   "dao", "trading", "bot", "arbitrage", "sniper", "defi", "yield",
   "vault", "anchor", "framework", "library"]

/-- The substrings tested by `categorizeProgram`'s rules, in order. -/
def categorizeProgramPatterns : List String :=
  ["dex", "swap", "amm", "nft", "metaplex", "token", "lend", "borrow",
   "yield", "stake", "validator", "governance", "dao", "vote", "trading",
   "bot", "sniper", "wallet", "adapter", "bridge", "cross-chain"]

/-- C5 counterexample: for the record named "zzz" with no description
and no topics, no substring of any rule of the batch-discovery or
high-value categorizer occurs in the classification text, yet both
return "DeFi", not "Infrastructure". -/
theorem categorize_default_counterexample :
    batchCategorizePatterns.all
      (fun pat => !jsIncludes (discoveryText "zzz" none []) pat) = true ∧
    batchCategorize "zzz" none [] = "DeFi" ∧
    ¬ batchCategorize "zzz" none [] = "Infrastructure" ∧
    highValueCategorizePatterns.all
      (fun pat => !jsIncludes (discoveryText "zzz" none []) pat) = true ∧
    highValueCategorize "zzz" none [] = "DeFi" := by
  decide

/-- C5 amended: every classifier is total (no error path; the functions
return a category for every input), but the no-match default differs by
classifier — `batchCategorize` and `highValueCategorize` default to
"DeFi", while `categorizeProgram` and `getCategoryFromTopics` default to
Infrastructure; and `batchCategorize` always returns one of the eight
fixed category strings. -/
theorem classifier_totality_and_defaults :
    (∀ name descr topics,
      batchCategorizePatterns.all
        (fun pat => !jsIncludes (discoveryText name descr topics) pat) = true →
      batchCategorize name descr topics = "DeFi") ∧
    (∀ name descr topics,
      highValueCategorizePatterns.all
        (fun pat => !jsIncludes (discoveryText name descr topics) pat) = true →
      highValueCategorize name descr topics = "DeFi") ∧
    (∀ name descr topics,
      categorizeProgramPatterns.all
        (fun pat => !jsIncludes (discoveryText name descr topics) pat) = true →
      categorizeProgram name descr topics = "Infrastructure") ∧
    (∀ topics,
      topicRulePatterns.all
        (fun pat =>
          !jsIncludes (jsToLower (String.intercalate " " topics)) pat) = true →
      getCategoryFromTopics topics = Category.Infrastructure) ∧
    (∀ name descr topics,
      (["DEX", "NFT", "Lending", "Staking", "Governance", "Trading",
        "Infrastructure", "DeFi"]).contains
          (batchCategorize name descr topics) = true) := by
  refine ⟨fun name descr topics h => ?_, fun name descr topics h => ?_,
    fun name descr topics h => ?_, fun topics h => ?_,
    fun name descr topics => ?_⟩
  · simp only [batchCategorizePatterns, List.all_cons, List.all_nil,
      Bool.and_eq_true, Bool.not_eq_true', and_true] at h
    obtain ⟨h1, h2, h3, h4, h5, h6, h7, h8, h9, h10, h11, h12, h13, h14,
      h15, h16⟩ := h
    simp [batchCategorize, h1, h2, h3, h4, h5, h6, h7, h8, h9, h10, h11,
      h12, h13, h14, h15, h16]
  · simp only [highValueCategorizePatterns, List.all_cons, List.all_nil,
      Bool.and_eq_true, Bool.not_eq_true', and_true] at h
    obtain ⟨h1, h2, h3, h4, h5, h6, h7, h8, h9, h10, h11, h12, h13, h14,
      h15, h16⟩ := h
    simp [highValueCategorize, h1, h2, h3, h4, h5, h6, h7, h8, h9, h10,
      h11, h12, h13, h14, h15, h16]
  · simp only [categorizeProgramPatterns, List.all_cons, List.all_nil,
      Bool.and_eq_true, Bool.not_eq_true', and_true] at h
    obtain ⟨h1, h2, h3, h4, h5, h6, h7, h8, h9, h10, h11, h12, h13, h14,
      h15, h16, h17, h18, h19, h20, h21⟩ := h
    simp [categorizeProgram, h1, h2, h3, h4, h5, h6, h7, h8, h9, h10, h11,
      h12, h13, h14, h15, h16, h17, h18, h19, h20, h21]
  · simp only [topicRulePatterns, List.all_cons, List.all_nil,
      Bool.and_eq_true, Bool.not_eq_true', and_true] at h
    obtain ⟨h1, h2, h3, h4, h5, h6, h7, h8, h9, h10, h11, h12, h13, h14,
      h15, h16, h17, h18, h19, h20, h21, h22, h23, h24⟩ := h
    simp [getCategoryFromTopics, h1, h2, h3, h4, h5, h6, h7, h8, h9, h10,
      h11, h12, h13, h14, h15, h16, h17, h18, h19, h20, h21, h22, h23, h24]
  · simp only [batchCategorize]
    repeat' split
    all_goals decide

/-- Witness for the C5 amended theorem: the defaults at the unmatched
record "zzz" with no description and no topics. -/
theorem classifier_totality_and_defaults_witness :
    batchCategorize "zzz" none [] = "DeFi" ∧
    highValueCategorize "zzz" none [] = "DeFi" ∧
    categorizeProgram "zzz" none [] = "Infrastructure" ∧
    getCategoryFromTopics ["zzz"] = Category.Infrastructure :=
  ⟨classifier_totality_and_defaults.1 "zzz" none [] (by decide),
   classifier_totality_and_defaults.2.1 "zzz" none [] (by decide),
   classifier_totality_and_defaults.2.2.1 "zzz" none [] (by decide),
   classifier_totality_and_defaults.2.2.2.1 ["zzz"] (by decide)⟩

/-- Scanner invariant: every collected file passed `isCodeFile`. -/
def scanInv (st : ScanState) : Prop := ∀ f ∈ st.allFiles, isCodeFile f = true

/-- `scanItems` preserves the scanner invariant, given that the
subdirectory recursion does. -/
theorem scanItems_inv (recurse : String → ScanState → ScanState) (depth : Nat)
    (hrec : ∀ d st, scanInv st → scanInv (recurse d st)) :
    ∀ (l : List GitHubFile) (st : ScanState), scanInv st →
      scanInv (scanItems recurse depth l st) := by
  intro l
  induction l with
  | nil => intro st h; simpa [scanItems] using h
  | cons item rest ih =>
    intro st h
    have hpush : (item.ftype = "file" && isCodeFile item) = true →
        scanInv { st with allFiles := st.allFiles ++ [item] } := by
      intro hc f hf
      rcases List.mem_append.mp hf with hf | hf
      · exact h f hf
      · rcases List.mem_singleton.mp hf with rfl
        simp only [Bool.and_eq_true] at hc
        exact hc.2
    simp only [scanItems]
    split_ifs with c1 c2 c3 c4
    · exact hpush c1
    · exact ih _ (hpush c1)
    · exact hrec _ _ h
    · exact ih _ (hrec _ _ h)
    · exact ih _ h

/-- `scanPathF` preserves the scanner invariant. -/
theorem scanPathF_inv (env : DirEnv) :
    ∀ (fuel depth : Nat) (dirPath : String) (st : ScanState),
      scanInv st → scanInv (scanPathF env fuel depth dirPath st) := by
  intro fuel
  induction fuel with
  | zero => intro depth dirPath st h; simpa [scanPathF] using h
  | succ fuel ih =>
    intro depth dirPath st h
    simp only [scanPathF]
    split_ifs with c1 c2 c3
    · exact h
    · exact h
    · exact h
    · cases henv : env dirPath with
      | error e => simpa [henv] using h
      | ok contents =>
        simp only [henv]
        exact scanItems_inv _ depth (fun d st' h' => ih (depth + 1) d st' h')
          contents _ h

/-- `scanRootItems` preserves the scanner invariant. -/
theorem scanRootItems_inv (env : DirEnv) :
    ∀ (l : List GitHubFile) (st : ScanState), scanInv st →
      scanInv (scanRootItems env l st) := by
  intro l
  induction l with
  | nil => intro st h; simpa [scanRootItems] using h
  | cons item rest ih =>
    intro st h
    have hpush : (item.ftype = "file" && isCodeFile item) = true →
        scanInv { st with allFiles := st.allFiles ++ [item] } := by
      intro hc f hf
      rcases List.mem_append.mp hf with hf | hf
      · exact h f hf
      · rcases List.mem_singleton.mp hf with rfl
        simp only [Bool.and_eq_true] at hc
        exact hc.2
    simp only [scanRootItems]
    split_ifs with c1 c2 c3 c4
    · exact hpush (by
        have := c1
        simp only [Bool.and_eq_true] at this ⊢
        exact ⟨this.1.1, this.1.2⟩)
    · exact ih _ (hpush (by
        have := c1
        simp only [Bool.and_eq_true] at this ⊢
        exact ⟨this.1.1, this.1.2⟩))
    · exact scanPathF_inv env 3 1 item.path st h
    · exact ih _ (scanPathF_inv env 3 1 item.path st h)
    · exact ih _ h

/-- The priority-directory fold preserves the scanner invariant. -/
theorem findCodeFilesP_inv (env : DirEnv) : scanInv (findCodeFilesP env) := by
  unfold findCodeFilesP
  have h0 : scanInv { allFiles := [], scannedPaths := [] } := by
    intro f hf; cases hf
  have hstep : ∀ (l : List String) (st : ScanState), scanInv st →
      scanInv (l.foldl
        (fun st p => if MAX_FILES ≤ st.allFiles.length then st
          else scanPathF env 4 0 p st) st) := by
    intro l
    induction l with
    | nil => intro st h; simpa using h
    | cons x t ih =>
      intro st h
      simp only [List.foldl_cons]
      by_cases c : MAX_FILES ≤ st.allFiles.length
      · rw [if_pos c]; exact ih st h
      · rw [if_neg c]; exact ih _ (scanPathF_inv env 4 0 x st h)
  exact hstep PRIORITY_DIRS _ h0

/-- The full scan of `findCodeFiles` preserves the scanner invariant. -/
theorem findCodeFilesR_inv (env : DirEnv) : scanInv (findCodeFilesR env) := by
  simp only [findCodeFilesR]
  have hP := findCodeFilesP_inv env
  split_ifs with c
  · cases henv : env "" with
    | error e => simpa [henv] using hP
    | ok contents =>
      simp only [henv]
      exact scanRootItems_inv env contents _ hP
  · exact hP

/-- What `isCodeFile = true` gives: size at most `MAX_FILE_SIZE` and a
recognized code extension. -/
theorem isCodeFile_size_ext (f : GitHubFile) (h : isCodeFile f = true) :
    f.size ≤ MAX_FILE_SIZE ∧
    CODE_EXTENSIONS.any (fun e => jsEndsWith f.name e) = true := by
  unfold isCodeFile at h
  split_ifs at h with c1 c2
  exact ⟨Nat.le_of_not_lt c2, h⟩

/-- `fetchFilesLoop` produces at most one output file per input file. -/
theorem fetchFilesLoop_length (env : FetchEnv) :
    ∀ (l : List GitHubFile) (acc : List RepoFile),
      (fetchFilesLoop env l acc).length ≤ acc.length + l.length := by
  intro l
  induction l with
  | nil => intro acc; simp [fetchFilesLoop]
  | cons file rest ih =>
    intro acc
    unfold fetchFilesLoop
    cases file.download_url with
    | none =>
      dsimp only
      calc (fetchFilesLoop env rest acc).length ≤ acc.length + rest.length := ih acc
        _ ≤ acc.length + (file :: rest).length := by simp
    | some u =>
      dsimp only
      cases env.fileContent u with
      | error e =>
        dsimp only
        calc (fetchFilesLoop env rest acc).length ≤ acc.length + rest.length := ih acc
          _ ≤ acc.length + (file :: rest).length := by simp
      | ok content =>
        dsimp only
        calc (fetchFilesLoop env rest _).length
            ≤ (acc ++ [_]).length + rest.length := ih _
          _ ≤ acc.length + (file :: rest).length := by simp; omega

/-- C6 (amended form): the fresh result of `fetchRepoCode` is bounded —
its file tree holds at most `MAX_FILES` (20) entries, at most that many
file contents are fetched, and every entry of the tree has size at most
`MAX_FILE_SIZE` (100 KB) and a recognized code extension. -/
theorem fetchRepoCode_bounds (env : FetchEnv) (owner repo : String) :
    (fetchRepoCodeFresh env owner repo).fileTree.length ≤ MAX_FILES ∧
    (fetchRepoCodeFresh env owner repo).files.length ≤ MAX_FILES ∧
    (∀ f ∈ (fetchRepoCodeFresh env owner repo).fileTree,
      f.size ≤ MAX_FILE_SIZE ∧
      CODE_EXTENSIONS.any (fun e => jsEndsWith f.name e) = true) := by
  have hlen : (findCodeFiles env.dirs).length ≤ MAX_FILES := by
    unfold findCodeFiles
    exact List.length_take_le _ _
  have hcode : ∀ f ∈ findCodeFiles env.dirs, isCodeFile f = true := by
    intro f hf
    unfold findCodeFiles at hf
    exact findCodeFilesR_inv env.dirs f (List.take_subset _ _ hf)
  simp only [fetchRepoCodeFresh]
  refine ⟨hlen, ?_, fun f hf => isCodeFile_size_ext f (hcode f hf)⟩
  calc (fetchFilesLoop env (findCodeFiles env.dirs) []).length
      ≤ ([] : List RepoFile).length + (findCodeFiles env.dirs).length :=
        fetchFilesLoop_length env _ _
    _ ≤ MAX_FILES := by simpa using hlen

/-- A file entry of exactly 100 KB (102400 bytes) — the boundary of the
size ceiling. -/
def bigFile : GitHubFile :=
  { name := "a.rs", path := "a.rs", ftype := "file",
    download_url := some "https://raw.example/a.rs",
    html_url := "https://github.example/a.rs", size := 100 * 1024 }

/-- A repository whose root holds exactly the boundary-size file and
whose other directories do not exist. -/
def cexDirEnv : DirEnv := fun p => if p = "" then .ok [bigFile] else .error ()

/-- The fetch environment around `cexDirEnv`. -/
def cexFetchEnv : FetchEnv :=
  { dirs := cexDirEnv, fileContent := fun _ => .ok "code",
    nowIso := "2024-01-01T00:00:00.000Z" }

/-- C6 counterexample: a file of exactly 102400 bytes (= the 100 KB
ceiling) is included in the result — the scanner rejects only files
strictly larger than `MAX_FILE_SIZE` — so not every included file is
strictly under the ceiling. -/
theorem fetchRepoCode_size_boundary_counterexample :
    (fetchRepoCodeFresh cexFetchEnv "o" "r").fileTree = [bigFile] ∧
    bigFile ∈ (fetchRepoCodeFresh cexFetchEnv "o" "r").fileTree ∧
    ¬ bigFile.size < MAX_FILE_SIZE := by
  decide

/-- Witness for the C6 amended theorem: the bounds applied at the
boundary-size repository. -/
theorem fetchRepoCode_bounds_witness :
    (fetchRepoCodeFresh cexFetchEnv "o" "r").fileTree.length ≤ MAX_FILES ∧
    bigFile.size ≤ MAX_FILE_SIZE ∧
    CODE_EXTENSIONS.any (fun e => jsEndsWith bigFile.name e) = true :=
  ⟨(fetchRepoCode_bounds cexFetchEnv "o" "r").1,
   ((fetchRepoCode_bounds cexFetchEnv "o" "r").2.2 bigFile (by decide)).1,
   ((fetchRepoCode_bounds cexFetchEnv "o" "r").2.2 bigFile (by decide)).2⟩

/-- A failed directory listing leaves the collected files unchanged
(the error is caught inside `scanPath`). -/
theorem scanPathF_allFiles_of_error (env : DirEnv) (fuel depth : Nat)
    (dirPath : String) (st : ScanState) (h : env dirPath = .error ()) :
    (scanPathF env fuel depth dirPath st).allFiles = st.allFiles := by
  cases fuel with
  | zero => rfl
  | succ fuel =>
    simp only [scanPathF]
    split_ifs with c1 c2 c3 <;> try rfl
    simp [h]

/-- Under a network in which every listing throws, the priority scan
collects nothing. -/
theorem findCodeFilesP_of_allError (env : DirEnv) (h : ∀ p, env p = .error ()) :
    (findCodeFilesP env).allFiles = [] := by
  unfold findCodeFilesP
  have hstep : ∀ (l : List String) (st : ScanState), st.allFiles = [] →
      (l.foldl (fun st p => if MAX_FILES ≤ st.allFiles.length then st
        else scanPathF env 4 0 p st) st).allFiles = [] := by
    intro l
    induction l with
    | nil => intro st hst; simpa using hst
    | cons x t ih =>
      intro st hst
      simp only [List.foldl_cons]
      by_cases c : MAX_FILES ≤ st.allFiles.length
      · rw [if_pos c]; exact ih st hst
      · rw [if_neg c]
        exact ih _ (by rw [scanPathF_allFiles_of_error env 4 0 x st (h x)]; exact hst)
  exact hstep PRIORITY_DIRS _ rfl

/-- Under a network in which every listing throws, `findCodeFiles`
returns the empty list (all errors are swallowed). -/
theorem findCodeFiles_of_allError (env : DirEnv) (h : ∀ p, env p = .error ()) :
    findCodeFiles env = [] := by
  have hP := findCodeFilesP_of_allError env h
  unfold findCodeFiles
  simp only [findCodeFilesR]
  split_ifs with c
  · rw [h ""]
    simp [hP]
  · simp [hP]

/-- A network environment describing an empty repository: every listing
succeeds and returns no entries. -/
def emptyRepoFetchEnv : FetchEnv :=
  { dirs := fun _ => .ok [], fileContent := fun _ => .error (),
    nowIso := "2024-01-01T00:00:00.000Z" }

/-- C8 counterexample: a total fetch failure (every directory listing
throws) and a genuinely empty repository produce the SAME result —
`fetchRepoCode` returns a normal `RepoContent` with empty `files` and
`fileTree` in both cases and propagates no error, so callers cannot
tell the two apart. -/
theorem empty_vs_failure_indistinguishable :
    fetchRepoCodeFresh allFailFetchEnv "o" "r" =
      fetchRepoCodeFresh emptyRepoFetchEnv "o" "r" ∧
    (fetchRepoCodeFresh allFailFetchEnv "o" "r").files = [] ∧
    (fetchRepoCodeFresh allFailFetchEnv "o" "r").fileTree = [] := by
  decide

/-- C8 amended: `fetchRepoCode` never propagates a fetch error — under
a network where every directory listing throws, it still returns a
normal result, the same empty-files result an empty repository
produces. -/
theorem fetchRepoCode_swallows_scan_errors (env : FetchEnv)
    (owner repo : String) (hfail : ∀ p, env.dirs p = .error ()) :
    fetchRepoCodeFresh env owner repo =
      { owner := owner, repo := repo, files := [], fileTree := [],
        fetchedAt := env.nowIso } := by
  have htree := findCodeFiles_of_allError env.dirs hfail
  simp only [fetchRepoCodeFresh]
  rw [htree]
  rfl

/-- Witness for the C8 amended theorem: the all-failing network yields
the explicit empty result. -/
theorem fetchRepoCode_swallows_scan_errors_witness :
    fetchRepoCodeFresh allFailFetchEnv "o" "r" =
      { owner := "o", repo := "r", files := [], fileTree := [],
        fetchedAt := allFailFetchEnv.nowIso } :=
  fetchRepoCode_swallows_scan_errors allFailFetchEnv "o" "r" (fun _ => rfl)

/-- The environment conditions of the read-path claim: a connection
failure, a thrown schema probe, a missing `programs` table, a schema
with none of the known columns, or a select that throws or returns zero
rows. -/
def dbReadFails (env : DbEnv) : Prop :=
  env.connect = .error () ∨
  env.tableExists = .error () ∨
  env.tableExists = .ok false ∨
  env.columns = .error () ∨
  (∃ cols, env.columns = .ok cols ∧ buildSelectFields cols = []) ∨
  (∀ fields, env.queryRows fields = .error ()) ∨
  (∀ fields, env.queryRows fields = .ok [])

/-- Under any failing or degraded store, the `try` block either throws
or falls back — it never produces a database-built snapshot. -/
theorem getProgramsDataInner_of_fails (env : DbEnv) (hfail : dbReadFails env) :
    getProgramsDataInner env = .error () ∨
    getProgramsDataInner env = .ok .fellBack := by
  unfold getProgramsDataInner
  cases hc : env.connect with
  | error e => left; rfl
  | ok u =>
    cases ht : env.tableExists with
    | error e => left; rfl
    | ok b =>
      cases b with
      | false => right; rfl
      | true =>
        cases hcols : env.columns with
        | error e => left; rfl
        | ok cols =>
          dsimp only
          by_cases hsel : buildSelectFields cols = []
          · rw [if_pos hsel]; right; rfl
          · rw [if_neg hsel]
            rcases hfail with h | h | h | h | ⟨cols', h, hsel'⟩ | h | h
            · rw [hc] at h; cases h
            · rw [ht] at h; cases h
            · rw [ht] at h; cases h
            · rw [hcols] at h; cases h
            · rw [hcols] at h; cases h; exact absurd hsel' hsel
            · rw [h]; left; rfl
            · rw [h]; right; rfl

/-- C1: the read path is total and degrades to the bundled snapshot —
whenever the in-process cache is cold or stale and the relational read
fails in any of the enumerated ways (connection failure, missing table,
malformed schema, zero rows), `getProgramsData` still returns normally,
and the snapshot it returns is exactly the bundled JSON fallback
(`raw`).  Totality for all other environments is by construction: the
embedding's `getProgramsData` returns a `ProgramsData` for every
environment, the `catch` absorbing every `Except.error` of the `try`
block. -/
theorem getProgramsData_total_fallback (raw : ProgramsData) (st : DbCache)
    (env : DbEnv) (now : Int)
    (hcache : st.cachedData = none ∨ CACHE_TTL ≤ now - st.lastFetch)
    (hfail : dbReadFails env) :
    (getProgramsData raw st env now).1 = raw := by
  have hrun : (getProgramsDataRun raw st env now).1 = raw := by
    unfold getProgramsDataRun
    rcases getProgramsDataInner_of_fails env hfail with h | h <;> rw [h]
  unfold getProgramsData
  cases hcd : st.cachedData with
  | none => exact hrun
  | some d =>
    dsimp only
    rcases hcache with h | h
    · rw [hcd] at h; cases h
    · rw [if_neg (Int.not_lt.mpr h)]
      exact hrun

/-- A sample bundled snapshot standing in for the JSON import. -/
def sampleSnapshot : ProgramsData :=
  { scrapedAt := "2024-01-01T00:00:00.000Z", totalRepos := 1,
    keywordsSearched := ["solana+program"],
    repos := [{ fullName := "a/x", owner := "a", name := "x",
                url := "https://github.com/a/x", description := "d",
                stars := 60, language := "Rust",
                updated := "2024-01-01T00:00:00Z", topics := ["solana"] }] }

/-- A database environment in which the connection itself fails. -/
def dbEnvConnFail : DbEnv :=
  { connect := .error (), tableExists := .error (), columns := .error (),
    queryRows := fun _ => .error (),
    nowIso := "2024-01-01T00:00:00.000Z", dateIso := fun s => s }

/-- Witness for C1: with a cold cache and a failing connection, the
returned snapshot is the bundled fallback. -/
theorem getProgramsData_total_fallback_witness :
    (getProgramsData sampleSnapshot { cachedData := none, lastFetch := 0 }
      dbEnvConnFail 0).1 = sampleSnapshot :=
  getProgramsData_total_fallback sampleSnapshot
    { cachedData := none, lastFetch := 0 } dbEnvConnFail 0
    (Or.inl rfl) (Or.inl rfl)
